import Mathlib

/-!
# Verification of the busylight concurrency/lifecycle core

A shallow embedding, in Lean 4, of the core of the `busylight` package:

* `src/busylight/manager.py` — the `LightManager` class (device selection,
  hot-plug update, group color/effect application, off, release);
* `src/busylight/effects/effect.py` — the `BaseEffect` class (registry lookup
  by case-folded name, `duty_cycle` attribute, and the infinite effect loop
  `__call__`).

Python machinery is made explicit:

* Python list indexing (`lights[index]` with `IndexError`, including negative
  indices counting from the end) is `pyIndex`;
* the lazily-present `_duty_cycle` attribute is an `Option` field read through
  `getattr(self, "_duty_cycle", 0)`;
* `UnboundLocalError` (raised by `update()` when `greedy` is false, because
  `new_lights` is only assigned inside `if self.greedy:`) appears as an
  explicit error result;
* `itertools.cycle` is a cursor over the color list that restarts at the head
  when exhausted, and the infinite `async` loop of `BaseEffect.__call__` is
  run to a fuel bound, producing the finite prefix of its event trace.

The `USBLight` class itself (task slots `add_task` / `cancel_tasks`,
`all_lights`, `off`, `is_pluggedin`) is not part of the sources at hand; those
operations are modelled from the specification's contracts, and each such
definition is marked `Modelled from the spec:` in its doc comment.
-/

namespace Busylight

/-- An RGB triple of 8-bit channel intensities (`ColorTuple` in color.py);
range constraints are irrelevant to the claims, so channels are plain `Nat`. -/
abbrev ColorTuple := Nat × Nat × Nat

/-! ## Python list indexing

`self.lights[index]` in `LightManager.selected_lights` uses Python indexing:
a non-negative index `i` succeeds iff `i < len`, a negative index `i`
addresses position `len + i` and succeeds iff `-len ≤ i`; anything else
raises `IndexError`. -/

/-- Python `xs[i]` for `i : Int`: `some` element or `none` for `IndexError`. -/
def pyIndex {α : Type} (xs : List α) (i : Int) : Option α :=
  if 0 ≤ i then xs.get? i.toNat
  else if -(xs.length : Int) ≤ i then xs.get? ((xs.length : Int) + i).toNat
  else none

/-- The position a Python index resolves to, if it is in range. -/
def resolvePos (len : Nat) (i : Int) : Option Nat :=
  if 0 ≤ i then (if i < (len : Int) then some i.toNat else none)
  else if -(len : Int) ≤ i then some ((len : Int) + i).toNat
  else none

theorem pyIndex_eq_resolvePos {α : Type} (xs : List α) (i : Int) :
    pyIndex xs i = (resolvePos xs.length i).bind xs.get? := by
  unfold pyIndex resolvePos
  split
  · rename_i h0
    split
    · rfl
    · rename_i hlt
      rw [List.get?_eq_none.mpr (by omega)]
      rfl
  · split
    · rfl
    · rfl

theorem resolvePos_lt {len : Nat} {i : Int} {j : Nat}
    (h : resolvePos len i = some j) : j < len := by
  unfold resolvePos at h
  split at h
  · split at h
    · rename_i h0 hlt
      cases h
      omega
    · cases h
  · split at h
    · rename_i h0 hge
      cases h
      omega
    · cases h

/-! ## `LightManager.selected_lights` (manager.py lines 75–101)

```python
if not indices:
    indices = range(0, len(self.lights))
selected_lights = []
for index in indices:
    try:
        selected_lights.append(self.lights[index])
    except IndexError as error:
        logger.debug(f"index:\x7bindex\x7d \x7berror\x7d")
if selected_lights:
    return selected_lights
raise NoLightsFound(indices)
```
-/

/-- The Python errors the embedded manager operations can raise. -/
inductive PyError : Type where
  /-- `NoLightsFound(indices)`, carrying the index list it was raised with. -/
  | noLightsFound (indices : List Int)
  /-- `UnboundLocalError` — a local variable referenced before assignment. -/
  | unboundLocal
  deriving DecidableEq, Repr

/-- The `for index in indices:` accumulation loop of `selected_lights`:
append `self.lights[index]` when it exists, log and skip on `IndexError`. -/
def selectLoop {α : Type} (lights : List α) : List Int → List α
  | [] => []
  | i :: rest =>
    match pyIndex lights i with
    | some l => l :: selectLoop lights rest
    | none => selectLoop lights rest

/-- `indices` defaulting: `if not indices:` replaces a `None` or empty list by
`range(0, len(self.lights))`. -/
def defaultIndices {α : Type} (lights : List α) : Option (List Int) → List Int
  | none => (List.range lights.length).map Int.ofNat
  | some [] => (List.range lights.length).map Int.ofNat
  | some (i :: rest) => i :: rest

/-- `LightManager.selected_lights(indices)`. -/
def selected_lights {α : Type} (lights : List α) (indices : Option (List Int)) :
    Except PyError (List α) :=
  let idxs := defaultIndices lights indices
  let sel := selectLoop lights idxs
  if sel.isEmpty then .error (.noLightsFound idxs) else .ok sel

theorem selectLoop_eq_filterMap {α : Type} (lights : List α) (idxs : List Int) :
    selectLoop lights idxs = idxs.filterMap (pyIndex lights) := by
  induction idxs with
  | nil => rfl
  | cons i rest ih =>
    simp only [selectLoop, List.filterMap_cons]
    cases pyIndex lights i with
    | none => simpa using ih
    | some l => simpa using ih

theorem selectLoop_range {α : Type} (lights : List α) :
    selectLoop lights ((List.range lights.length).map Int.ofNat) = lights := by
  rw [selectLoop_eq_filterMap, List.filterMap_map]
  have h : ∀ (n : Nat) (xs : List α), n ≤ xs.length →
      List.filterMap (fun j : Nat => pyIndex xs ((j : Nat) : Int)) (List.range n) =
        xs.take n := by
    intro n
    induction n with
    | zero => intro xs _; simp
    | succ m ih =>
      intro xs hm
      rw [List.range_succ, List.filterMap_append, ih xs (Nat.le_of_succ_le hm)]
      have hget : pyIndex xs ((m : Nat) : Int) = some (xs.get ⟨m, hm⟩) := by
        unfold pyIndex
        rw [if_pos (Int.natCast_nonneg m)]
        simp [List.get?_eq_get hm]
      simp [hget, List.take_succ, List.get?_eq_get hm]
  have := h lights.length lights (le_refl _)
  simpa [Function.comp, Int.ofNat_eq_coe] using this

/-- C2: `selected_lights(indices)`: an empty (or absent) `indices` selects
every tracked device in tracked order; otherwise the call returns exactly the
devices at the given positional indices in the given order, silently skipping
every out-of-range index; it raises `NoLightsFound` if and only if the
resulting selection is empty. -/
theorem selected_lights_spec {α : Type} (lights : List α) (idxs : List Int)
    (hne : idxs ≠ []) :
    (lights ≠ [] → selected_lights lights none = .ok lights
      ∧ selected_lights lights (some []) = .ok lights)
    ∧ (lights = [] →
        selected_lights lights none = .error (.noLightsFound []))
    ∧ (idxs.filterMap (pyIndex lights) ≠ [] →
        selected_lights lights (some idxs) =
          .ok (idxs.filterMap (pyIndex lights)))
    ∧ (idxs.filterMap (pyIndex lights) = [] →
        selected_lights lights (some idxs) = .error (.noLightsFound idxs)) :=
  by
  have hdef : defaultIndices lights (some idxs) = idxs := by
    cases idxs with
    | nil => exact absurd rfl hne
    | cons i rest => rfl
  refine ⟨?_, ?_, ?_, ?_⟩
  · intro hl
    constructor
    · simp [selected_lights, defaultIndices, selectLoop_range, hl]
    · simp [selected_lights, defaultIndices, selectLoop_range, hl]
  · intro hl
    subst hl
    simp [selected_lights, defaultIndices, selectLoop_range, selectLoop]
  · intro hsel
    simp [selected_lights, hdef, selectLoop_eq_filterMap, hsel]
  · intro hsel
    simp [selected_lights, hdef, selectLoop_eq_filterMap, hsel]

theorem selected_lights_spec_witness :
    selected_lights ([10, 20] : List Nat) (some [0, 5]) = .ok [10] :=
  (selected_lights_spec [10, 20] [0, 5] (by decide)).2.2.1 (by decide)

/-- C10: a negative index `i` with `-k ≤ i ≤ -1` (where `k` is the number of
tracked devices) is not skipped as out of range: it selects the device at
position `k + i`, counting from the end of the tracked list; only a negative
index below `-k` is skipped as out of range. -/
theorem selected_lights_negative_index {α : Type} (lights : List α) (i : Int)
    (h1 : -(lights.length : Int) ≤ i) (h2 : i ≤ -1) (j : Int)
    (hj : j < -(lights.length : Int)) :
    pyIndex lights i = lights.get? ((lights.length : Int) + i).toNat
    ∧ (∃ l, lights.get? ((lights.length : Int) + i).toNat = some l
        ∧ pyIndex lights i = some l
        ∧ selected_lights lights (some [i]) = .ok [l])
    ∧ pyIndex lights j = none := by
  have hneg : ¬ 0 ≤ i := by omega
  have hpy : pyIndex lights i =
      lights.get? ((lights.length : Int) + i).toNat := by
    unfold pyIndex
    rw [if_neg hneg, if_pos h1]
  have hlt : ((lights.length : Int) + i).toNat < lights.length := by omega
  have hl : lights.get? ((lights.length : Int) + i).toNat =
      some (lights.get ⟨((lights.length : Int) + i).toNat, hlt⟩) :=
    List.get?_eq_get hlt
  refine ⟨hpy, ⟨lights.get ⟨((lights.length : Int) + i).toNat, hlt⟩, ?_, ?_, ?_⟩, ?_⟩
  · exact hl
  · rw [hpy]; exact hl
  · simp only [selected_lights, defaultIndices, selectLoop]
    rw [hpy, hl]
    simp
  · unfold pyIndex
    rw [if_neg (by omega), if_neg (by omega)]

theorem selected_lights_negative_index_witness :
    pyIndex ([10, 20, 30] : List Nat) (-1) = [10, 20, 30].get? 2
    ∧ (∃ l, ([10, 20, 30] : List Nat).get? 2 = some l
        ∧ pyIndex [10, 20, 30] (-1) = some l
        ∧ selected_lights [10, 20, 30] (some [-1]) = .ok [l])
    ∧ pyIndex ([10, 20, 30] : List Nat) (-4) = none := by
  have h := selected_lights_negative_index ([10, 20, 30] : List Nat) (-1)
    (by decide) (by decide) (-4) (by decide)
  simpa using h

/-! ## `USBLight` and `LightManager.update` (manager.py lines 103–128)

```python
if self.greedy:
    new_lights = self.lightclass.all_lights()
    logger.debug(...)
active_lights = [light for light in self.lights if light.is_pluggedin]
inactive_lights = [light for light in self.lights if light.is_unplugged]
self._lights += new_lights
return len(new_lights), len(active_lights), len(inactive_lights)
```

When `greedy` is false, `new_lights` is never assigned, so the statement
`self._lights += new_lights` raises `UnboundLocalError`. -/

/-- A managed light handle: identity (stable across the manager's lifetime),
the per-device task slot map (task name → task identifier, in insertion
order), and the last lit state (`none` after `off`). -/
structure USBLight where
  id : Nat
  tasks : List (String × Nat) := []
  litColor : Option ColorTuple := none
  deriving DecidableEq, Repr

/-- Modelled from the spec: `USBLight.is_pluggedin` (not under src/) queries
the handle's presence; presence is membership of the light's identity in the
set of currently attached device identities. -/
def is_pluggedin (attached : List Nat) (light : USBLight) : Bool :=
  attached.contains light.id

/-- Modelled from the spec: `USBLight.is_unplugged` (not under src/) is the
negation of presence. -/
def is_unplugged (attached : List Nat) (light : USBLight) : Bool :=
  !is_pluggedin attached light

/-- Modelled from the spec: `lightclass.all_lights()` (not under src/) probes
for all currently-connectable devices and yields fresh handles for the newly
discovered ones — those whose identity is not already tracked. -/
def all_lights (attached : List Nat) (tracked : List USBLight) : List USBLight :=
  (attached.filter (fun d => !(tracked.map USBLight.id).contains d)).map
    (fun d => { id := d })

/-- `LightManager` state: the `greedy` flag and the tracked light list. -/
structure LightManager where
  greedy : Bool
  lights : List USBLight
  deriving DecidableEq, Repr

/-- `LightManager.update()`: probe for new lights when greedy, classify the
known lights by presence, append the new lights, and return the triple
`(len(new_lights), len(active_lights), len(inactive_lights))`. When `greedy`
is false the read of `new_lights` raises `UnboundLocalError`. -/
def update (attached : List Nat) (m : LightManager) :
    Except PyError (LightManager × Nat × Nat × Nat) :=
  if m.greedy then
    let new_lights := all_lights attached m.lights
    let active_lights := m.lights.filter (is_pluggedin attached)
    let inactive_lights := m.lights.filter (is_unplugged attached)
    .ok ({ m with lights := m.lights ++ new_lights },
      new_lights.length, active_lights.length, inactive_lights.length)
  else
    .error .unboundLocal

/-- C3: the claim says a non-greedy manager's `update()` probes nothing and
returns `countNew = 0`; the code instead raises `UnboundLocalError`, because
`new_lights` is only assigned under `if self.greedy:` yet is read
unconditionally. This theorem evaluates the embedded code on every non-greedy
manager. -/
theorem update_not_greedy (attached : List Nat) (lights : List USBLight) :
    update attached { greedy := false, lights := lights } =
      .error .unboundLocal := rfl

/-- C5: a greedy `update()` appends only newly discovered (not already
tracked) lights, at the end of the list, so every previously tracked light
keeps its position; when every attached device is already tracked, nothing is
appended, `countNew = 0`, and an immediate second `update()` again returns
`countNew = 0` on the unchanged list. -/
theorem update_greedy_spec (attached : List Nat) (m : LightManager)
    (hg : m.greedy = true) :
    ∃ fresh nActive nInactive,
      update attached m =
        .ok ({ m with lights := m.lights ++ fresh },
          fresh.length, nActive, nInactive)
      ∧ (∀ l ∈ fresh, l.id ∉ m.lights.map USBLight.id)
      ∧ (m.lights ++ fresh).take m.lights.length = m.lights
      ∧ ((∀ d ∈ attached, d ∈ m.lights.map USBLight.id) →
          fresh = []
          ∧ update attached { m with lights := m.lights ++ fresh } =
              .ok ({ m with lights := m.lights ++ fresh },
                0, nActive, nInactive)) := by
  refine ⟨all_lights attached m.lights,
    (m.lights.filter (is_pluggedin attached)).length,
    (m.lights.filter (is_unplugged attached)).length, ?_, ?_, ?_, ?_⟩
  · simp [update, hg]
  · intro l hl
    simp only [all_lights, List.mem_map, List.mem_filter] at hl
    obtain ⟨d, ⟨_, hd⟩, rfl⟩ := hl
    simpa using hd
  · exact List.take_left m.lights _
  · intro hall
    have hfresh : all_lights attached m.lights = [] := by
      simp only [all_lights, List.map_eq_nil_iff, List.filter_eq_nil_iff]
      intro d hd
      simpa using hall d hd
    refine ⟨hfresh, ?_⟩
    simp [update, hg, hfresh]

theorem update_greedy_spec_witness :
    ∃ fresh nActive nInactive,
      update [5] { greedy := true, lights := [{ id := 5 }] } =
        .ok ({ greedy := true, lights := [{ id := 5 }] ++ fresh },
          fresh.length, nActive, nInactive)
      ∧ (∀ l ∈ fresh, l.id ∉ ([{ id := 5 }] : List USBLight).map USBLight.id)
      ∧ (([{ id := 5 }] : List USBLight) ++ fresh).take 1 = [{ id := 5 }]
      ∧ ((∀ d ∈ [5], d ∈ ([{ id := 5 }] : List USBLight).map USBLight.id) →
          fresh = []
          ∧ update [5] { greedy := true, lights := [{ id := 5 }] ++ fresh } =
              .ok ({ greedy := true, lights := [{ id := 5 }] ++ fresh },
                0, nActive, nInactive)) :=
  update_greedy_spec [5] { greedy := true, lights := [{ id := 5 }] } rfl

/-! ## Device task slots and `LightManager.effect_supervisor`
(manager.py lines 203–227)

```python
awaitables = []
for light in lights:
    light.cancel_tasks()
    light.add_task(effect.name, effect)
    awaitables.extend(light.tasks.values())
if awaitables and wait:
    await asyncio.wait(awaitables, timeout=timeout)
```
-/

/-- Modelled from the spec: `USBLight.cancel_tasks()` (not under src/)
cancels and awaits termination of every task on this device, clearing the
slot map. -/
def cancel_tasks (light : USBLight) : USBLight :=
  { light with tasks := [] }

/-- Modelled from the spec: `USBLight.add_task(name, runnable)` (not under
src/); a task already registered under `name` is cancelled and awaited before
the new task is registered under that name. -/
def add_task (name : String) (tid : Nat) (light : USBLight) : USBLight :=
  { light with
    tasks := light.tasks.filter (fun p => p.1 != name) ++ [(name, tid)] }

/-- One iteration of the `for light in lights:` loop in `effect_supervisor`:
`light.cancel_tasks()` then `light.add_task(effect.name, effect)`. The task
identifier `tid` stands for the coroutine object registered in the slot. -/
def superviseLight (name : String) (tid : Nat) (light : USBLight) : USBLight :=
  add_task name tid (cancel_tasks light)

/-- The task-slot action of `LightManager.effect_supervisor` on the selected
lights (the subsequent group `asyncio.wait` does not change task slots). -/
def effect_supervisor (name : String) (tid : Nat) (lights : List USBLight) :
    List USBLight :=
  lights.map (superviseLight name tid)

/-- Observable events of one device: a color write attributed to a named
effect task, or the installation of an effect task by the supervisor. -/
inductive DevEvent : Type where
  | write (devId : Nat) (effectName : String)
  | install (devId : Nat) (effectName : String)
  deriving DecidableEq, Repr

def DevEvent.isInstall : DevEvent → Bool
  | write _ _ => false
  | install _ _ => true

/-- Small-step semantics of one device under the cooperative scheduler. A
`frame` step is one loop iteration of a task registered in the device's slot
(a write attributed to that task, by `light.on(color)`); an `apply` step is
`effect_supervisor` acting on the device. Cooperative cancellation paired
with await-for-termination means a task removed from the slot map can take no
further frame step — which is exactly the premise `(name, tid) ∈ light.tasks`
of `frame`. -/
inductive DevStep : USBLight → DevEvent → USBLight → Prop where
  | frame (light : USBLight) (name : String) (tid : Nat) (c : ColorTuple)
      (hmem : (name, tid) ∈ light.tasks) :
      DevStep light (.write light.id name) { light with litColor := some c }
  | apply (light : USBLight) (name : String) (tid : Nat) :
      DevStep light (.install light.id name) (superviseLight name tid light)

/-- A finite run of `DevStep`, collecting the event trace. -/
inductive DevTrace : USBLight → List DevEvent → USBLight → Prop where
  | nil (light : USBLight) : DevTrace light [] light
  | cons {light light' light'' : USBLight} {e : DevEvent} {es : List DevEvent}
      (hstep : DevStep light e light') (htrace : DevTrace light' es light'') :
      DevTrace light (e :: es) light''

/-- In a run containing no install step, a device whose slot holds exactly
the single task `(F, tF)` only ever emits writes attributed to `F`, and its
slot still holds exactly `(F, tF)` afterwards. -/
theorem trace_writes_of_single_task {F : String} {tF : Nat}
    {light light' : USBLight} {es : List DevEvent}
    (htr : DevTrace light es light') (hT : light.tasks = [(F, tF)])
    (hno : ∀ e ∈ es, e.isInstall = false) :
    (∀ d n, DevEvent.write d n ∈ es → n = F) ∧ light'.tasks = [(F, tF)] := by
  induction htr with
  | nil => exact ⟨by simp, hT⟩
  | cons hstep htrace ih =>
    cases hstep with
    | frame name tid c hmem =>
      have hn : name = F := by
        rw [hT] at hmem
        simpa using congrArg Prod.fst (List.mem_singleton.mp hmem)
      have hrest := ih hT (fun e he => hno e (List.mem_cons_of_mem _ he))
      refine ⟨?_, hrest.2⟩
      intro d n hmem'
      rcases List.mem_cons.mp hmem' with h | h
      · cases h
        exact hn
      · exact hrest.1 d n h
    | apply name tid =>
      exact absurd (hno _ (List.mem_cons_self _ _)) (by simp [DevEvent.isInstall])

/-- C1: for every device selected by `effect_supervisor`, the manager first
cancels all of the device's registered tasks, then installs exactly one task
under the effect's name; hence after applying effect `E` and then effect `F`
to the same device, the device's slot contains exactly the one task for `F`,
and no write attributable to `E` occurs after `F`'s installation (in any
subsequent run with no further installation). -/
theorem effect_supervision_exclusive
    (light : USBLight) (E F : String) (tE tF : Nat) (hEF : E ≠ F)
    (lights : List USBLight) {es : List DevEvent} {light' : USBLight}
    (htr : DevTrace (superviseLight F tF (superviseLight E tE light)) es light')
    (hno : ∀ e ∈ es, e.isInstall = false) :
    (∀ l ∈ effect_supervisor F tF lights, l.tasks = [(F, tF)])
    ∧ (superviseLight F tF (superviseLight E tE light)).tasks = [(F, tF)]
    ∧ (∀ d n, DevEvent.write d n ∈ es → n ≠ E) := by
  have hsingle : ∀ (x : USBLight), (superviseLight F tF x).tasks = [(F, tF)] := by
    intro x
    simp [superviseLight, add_task, cancel_tasks]
  have htrace := trace_writes_of_single_task htr (hsingle _) hno
  refine ⟨?_, hsingle _, ?_⟩
  · intro l hl
    obtain ⟨x, _, rfl⟩ := List.mem_map.mp hl
    exact hsingle x
  · intro d n hmem
    rw [htrace.1 d n hmem]
    exact fun h => hEF h.symm

theorem effect_supervision_exclusive_witness :
    (∀ l ∈ effect_supervisor "Spectrum" 2 [⟨0, [("Old", 1)], none⟩],
        l.tasks = [("Spectrum", 2)])
    ∧ (superviseLight "Spectrum" 2
        (superviseLight "Blink" 1 ⟨0, [("Old", 1)], none⟩)).tasks =
        [("Spectrum", 2)]
    ∧ (∀ d n, DevEvent.write d n ∈ [DevEvent.write 0 "Spectrum"] →
        n ≠ "Blink") :=
  effect_supervision_exclusive ⟨0, [("Old", 1)], none⟩ "Blink" "Spectrum" 1 2
    (by decide) [⟨0, [("Old", 1)], none⟩]
    (DevTrace.cons
      (DevStep.frame _ "Spectrum" 2 (255, 0, 0)
        (by simp [superviseLight, add_task, cancel_tasks]))
      (DevTrace.nil _))
    (by simp [DevEvent.isInstall])

/-! ## `LightManager.off` (manager.py lines 229–239)

```python
for light in self.selected_lights(lights):
    light.off()
```
-/

/-- Modelled from the spec: `USBLight.off()` (not under src/) turns the light
off, overwriting its lit state; it does not touch the task slot map (the open
question recorded in the spec: a running effect simply overwrites the "off"
state at its next frame). -/
def light_off (light : USBLight) : USBLight :=
  { light with litColor := none }

/-- The in-place `light.off()` mutations seen from the manager's list: the
light at position `j` is turned off iff one of the selected indices resolves
to position `j` (`k` is the position of the head of the remaining list). -/
def offAt (poss : List Nat) : Nat → List USBLight → List USBLight
  | _, [] => []
  | k, light :: rest =>
    (if k ∈ poss then light_off light else light) :: offAt poss (k + 1) rest

/-- `LightManager.off(lights)`: resolve the selection (propagating
`NoLightsFound`), then call `off()` on each selected light. -/
def manager_off (lights : List USBLight) (indices : Option (List Int)) :
    Except PyError (List USBLight) :=
  match selected_lights lights indices with
  | .error e => .error e
  | .ok _ =>
    let poss :=
      (defaultIndices lights indices).filterMap (resolvePos lights.length)
    .ok (offAt poss 0 lights)

theorem offAt_map_tasks (poss : List Nat) (k : Nat) (lights : List USBLight) :
    (offAt poss k lights).map USBLight.tasks = lights.map USBLight.tasks := by
  induction lights generalizing k with
  | nil => rfl
  | cons l rest ih =>
    simp only [offAt, List.map_cons, ih]
    congr 1
    split <;> rfl

theorem offAt_map_id (poss : List Nat) (k : Nat) (lights : List USBLight) :
    (offAt poss k lights).map USBLight.id = lights.map USBLight.id := by
  induction lights generalizing k with
  | nil => rfl
  | cons l rest ih =>
    simp only [offAt, List.map_cons, ih]
    congr 1
    split <;> rfl

theorem offAt_get? (poss : List Nat) (k j : Nat) (lights : List USBLight) :
    (offAt poss k lights).get? j =
      (lights.get? j).map
        (fun l => if (k + j) ∈ poss then light_off l else l) := by
  induction lights generalizing k j with
  | nil => simp [offAt]
  | cons l rest ih =>
    cases j with
    | zero => simp [offAt]
    | succ j' =>
      have harith : k + 1 + j' = k + (j' + 1) := by omega
      simp only [offAt, List.get?_cons_succ, ih (k + 1) j', harith,
        List.get?_cons_succ]

/-- C7: `off(indices)` calls `turnOff()` on each selected device and cancels
no running effect task — after the call, every device's task slot map (and
device identity and list position) is exactly what it was before, and each
selected device's lit state has been overwritten with "off". -/
theorem off_preserves_tasks (lights : List USBLight)
    (indices : Option (List Int)) {lights' : List USBLight}
    (h : manager_off lights indices = .ok lights') :
    lights'.map USBLight.tasks = lights.map USBLight.tasks
    ∧ lights'.map USBLight.id = lights.map USBLight.id
    ∧ (∀ j, j ∈ (defaultIndices lights indices).filterMap
          (resolvePos lights.length) →
        ∀ hj : j < lights.length,
          lights'.get? j = some (light_off (lights.get ⟨j, hj⟩))) := by
  have hok : lights' =
      offAt ((defaultIndices lights indices).filterMap
        (resolvePos lights.length)) 0 lights := by
    unfold manager_off at h
    split at h
    · cases h
    · cases h
      rfl
  subst hok
  refine ⟨offAt_map_tasks _ _ _, offAt_map_id _ _ _, ?_⟩
  intro j hjmem hj
  rw [offAt_get? _ 0 j lights, List.get?_eq_get hj]
  simp [Nat.zero_add, hjmem]

theorem off_preserves_tasks_witness :
    (manager_off [⟨0, [("Spectrum", 2)], some (255, 0, 0)⟩] none =
      .ok [⟨0, [("Spectrum", 2)], none⟩])
    ∧ ([⟨0, [("Spectrum", 2)], none⟩] : List USBLight).map USBLight.tasks =
        ([⟨0, [("Spectrum", 2)], some (255, 0, 0)⟩] : List USBLight).map
          USBLight.tasks :=
  ⟨rfl,
    (off_preserves_tasks [⟨0, [("Spectrum", 2)], some (255, 0, 0)⟩] none
      rfl).1⟩

/-! ## `BaseEffect.duty_cycle` (effect.py lines 56–63)

```python
@property
def duty_cycle(self) -> float:
    return getattr(self, "_duty_cycle", 0)

@duty_cycle.setter
def duty_cycle(self, seconds: float) -> None:
    self._duty_cycle = seconds
```
-/

/-- The `_duty_cycle` instance attribute: absent until first assigned.
Durations are exact rationals standing for the Python floats (no rounding is
involved in the claims). -/
abbrev DutyCycleAttr := Option ℚ

/-- The `duty_cycle` getter: `getattr(self, "_duty_cycle", 0)`. -/
def duty_cycle_get (attr : DutyCycleAttr) : ℚ := attr.getD 0

/-- The `duty_cycle` setter: `self._duty_cycle = seconds`, no validation (the
previous attribute state is simply overwritten). -/
def duty_cycle_set (_attr : DutyCycleAttr) (seconds : ℚ) : DutyCycleAttr :=
  some seconds

/-- C9 counterexample: the setter performs no validation, so after
`duty_cycle = -1` the attribute holds and returns `-1 < 0`, refuting "every
value it holds is ≥ 0". -/
theorem duty_cycle_negative :
    duty_cycle_get (duty_cycle_set none (-1)) = -1
    ∧ ¬ (0 ≤ duty_cycle_get (duty_cycle_set none (-1))) := by
  refine ⟨rfl, ?_⟩
  norm_num [duty_cycle_get, duty_cycle_set]

/-- C9 (amended): `duty_cycle` defaults to 0 when never set and reading
returns the last value set; the setter enforces nothing, so the stored value
need not be non-negative. -/
theorem duty_cycle_get_set :
    duty_cycle_get none = 0
    ∧ ∀ (attr : DutyCycleAttr) (seconds : ℚ),
        duty_cycle_get (duty_cycle_set attr seconds) = seconds :=
  ⟨rfl, fun _ _ => rfl⟩

/-! ## `BaseEffect.for_name` (effect.py lines 34–42)

```python
casefolded_name = name.casefold()
for subclass in cls.subclasses():
    if subclass.__name__.casefold() == casefolded_name:
        return subclass
else:
    raise ValueError(f"Unknown effect \x7bname\x7d")
```
-/

/-- ASCII lower-casing of one character. -/
def asciiLower (c : Char) : Char :=
  if 65 ≤ c.toNat ∧ c.toNat ≤ 90 then Char.ofNat (c.toNat + 32) else c

/-- Python `str.casefold` restricted to the ASCII class names the effect
registry holds: character-wise lower-casing. -/
def casefold (s : String) : String := String.mk (s.data.map asciiLower)

/-- The `for subclass in cls.subclasses():` search loop: the first variant
whose casefolded name equals the casefolded query. -/
def forNameLoop (cf : String) : List String → Option String
  | [] => none
  | v :: rest => if casefold v = cf then some v else forNameLoop cf rest

/-- `BaseEffect.for_name(name)` over the registry of variant names.
(`cls.subclasses()` walks concrete variant classes that are not under src/;
the spec's statically-populated, deduplicated variant list stands for it.)
Returns the matching variant, or raises `ValueError(f"Unknown effect ...")` —
the spec's `UnknownEffect`. -/
def for_name (registry : List String) (name : String) : Except String String :=
  match forNameLoop (casefold name) registry with
  | some v => .ok v
  | none => .error name

theorem forNameLoop_eq_none {cf : String} {registry : List String} :
    forNameLoop cf registry = none ↔ ∀ v ∈ registry, casefold v ≠ cf := by
  induction registry with
  | nil => simp [forNameLoop]
  | cons v rest ih =>
    by_cases hv : casefold v = cf
    · simp [forNameLoop, hv]
    · simp [forNameLoop, hv, ih]

theorem forNameLoop_finds {cf : String} {registry : List String} {V : String}
    (hnodup : (registry.map casefold).Nodup) (hV : V ∈ registry)
    (hcf : casefold V = cf) : forNameLoop cf registry = some V := by
  induction registry with
  | nil => cases hV
  | cons v rest ih =>
    rcases List.mem_cons.mp hV with rfl | hVrest
    · simp [forNameLoop, hcf]
    · have hvV : casefold v ≠ cf := by
        intro hv
        have : casefold V ∈ rest.map casefold := List.mem_map_of_mem _ hVrest
        rw [hcf, ← hv] at this
        exact (List.nodup_cons.mp hnodup).1 this
      simp only [forNameLoop, if_neg hvV]
      exact ih (List.nodup_cons.mp hnodup).2 hVrest

/-- C6: registry lookup is case-insensitive — for every registered variant
`V` and every query that casefolds to `V`'s identifier, `for_name` returns
`V` — and it fails with `UnknownEffect` exactly when no registered variant
matches the query. (The registry's identifiers are pairwise distinct under
casefolding, as the spec's deduplicated static registry guarantees.) -/
theorem for_name_spec (registry : List String) (name : String)
    (hnodup : (registry.map casefold).Nodup) :
    (∀ V ∈ registry, casefold name = casefold V →
      for_name registry name = .ok V)
    ∧ (for_name registry name = .error name ↔
        ∀ V ∈ registry, casefold V ≠ casefold name) := by
  constructor
  · intro V hV hcf
    unfold for_name
    rw [forNameLoop_finds hnodup hV hcf.symm]
  · unfold for_name
    constructor
    · intro h
      cases hloop : forNameLoop (casefold name) registry with
      | none => exact forNameLoop_eq_none.mp hloop
      | some v => rw [hloop] at h; cases h
    · intro h
      rw [forNameLoop_eq_none.mpr h]

theorem for_name_spec_witness :
    for_name ["Spectrum", "Gradient", "Steady"] "SPECTRUM" = .ok "Spectrum"
    ∧ (for_name ["Spectrum", "Gradient", "Steady"] "nonexistent" =
        .error "nonexistent") :=
  ⟨(for_name_spec ["Spectrum", "Gradient", "Steady"] "SPECTRUM"
      (by decide)).1 "Spectrum" (by decide) (by decide),
    (for_name_spec ["Spectrum", "Gradient", "Steady"] "nonexistent"
      (by decide)).2.mpr (by decide)⟩

/-! ## Effect variants and their color sequences -/

/-- An effect variant instance: its name and its fixed color sequence. -/
structure Effect where
  name : String
  colors : List ColorTuple
  deriving DecidableEq, Repr

/-- Modelled from the spec: constructing a concrete effect variant (the
variant classes are not under src/) fixes its color sequence at construction
time and fails with `InvalidEffect` if that sequence would be empty. -/
def makeEffect (name : String) (colors : List ColorTuple) :
    Except String Effect :=
  if colors.isEmpty then .error "InvalidEffect" else .ok ⟨name, colors⟩

/-- C8: every successfully constructed effect variant has a non-empty color
sequence, and construction fails with `InvalidEffect` exactly when the color
sequence would be empty. -/
theorem effect_colors_nonempty (name : String) (colors : List ColorTuple) :
    (∀ e, makeEffect name colors = .ok e → e.colors ≠ [])
    ∧ (colors = [] ↔ makeEffect name colors = .error "InvalidEffect") := by
  constructor
  · intro e he
    unfold makeEffect at he
    split at he
    · cases he
    · rename_i hne
      cases he
      simpa using hne
  · unfold makeEffect
    constructor
    · intro h
      simp [h]
    · intro h
      split at h
      · rename_i hemp
        simpa using hemp
      · cases h

theorem effect_colors_nonempty_witness :
    makeEffect "Steady" [(255, 0, 0)] = .ok ⟨"Steady", [(255, 0, 0)]⟩
    ∧ (Effect.mk "Steady" [(255, 0, 0)]).colors ≠ [] :=
  ⟨rfl, (effect_colors_nonempty "Steady" [(255, 0, 0)]).1
    ⟨"Steady", [(255, 0, 0)]⟩ rfl⟩

/-! ## `BaseEffect.__call__` (effect.py lines 70–74)

```python
async def __call__(self, light: USBLight) -> None:
    for color in cycle(self.colors):
        light.on(color)
        await asyncio.sleep(self.duty_cycle)
```
-/

/-- One observable step of the bound effect loop: a `light.on(color)` write,
or the `await asyncio.sleep(self.duty_cycle)` suspension. -/
inductive LoopEvent : Type where
  | on (c : ColorTuple)
  | sleep (seconds : ℚ)
  deriving DecidableEq, Repr

/-- The `for color in cycle(self.colors):` loop body, run for `fuel` loop
iterations. `cursor` is the not-yet-yielded tail of the current pass of
`itertools.cycle(colors)`; when the pass is exhausted, the cycle restarts at
the head of `colors` — unless `colors` itself is empty, in which case the
iterator is exhausted and the `for` loop ends with no events. -/
def effectLoop (colors : List ColorTuple) (duty : ℚ) :
    Nat → List ColorTuple → List LoopEvent
  | 0, _ => []
  | fuel + 1, [] =>
    match colors with
    | [] => []
    | c :: rest => .on c :: .sleep duty :: effectLoop colors duty fuel rest
  | fuel + 1, c :: rest => .on c :: .sleep duty :: effectLoop colors duty fuel rest

/-- `BaseEffect.__call__` bound to a device, run for `fuel` frames: each
invocation builds a fresh `cycle(self.colors)` starting at the first color. -/
def effectCall (colors : List ColorTuple) (duty : ℚ) (fuel : Nat) :
    List LoopEvent :=
  effectLoop colors duty fuel colors

/-- The events of frames `j, j+1, ...` (fuel many) of the cycling loop:
each frame writes `colors[t % len]` and then sleeps for the duty cycle. -/
def cycleEvents (colors : List ColorTuple) (duty : ℚ) (fuel j : Nat) :
    List LoopEvent :=
  ((List.range fuel).map
    (fun t => colors.getD ((j + t) % colors.length) (0, 0, 0))).flatMap
    (fun c => [LoopEvent.on c, LoopEvent.sleep duty])

theorem effectLoop_drop (colors : List ColorTuple) (duty : ℚ)
    (h : colors ≠ []) :
    ∀ (fuel j : Nat), j ≤ colors.length →
      effectLoop colors duty fuel (colors.drop j) =
        cycleEvents colors duty fuel j := by
  intro fuel
  induction fuel with
  | zero =>
    intro j hj
    cases hdrop : colors.drop j with
    | nil => simp [effectLoop, cycleEvents]
    | cons c rest => simp [effectLoop, cycleEvents]
  | succ n ih =>
    intro j hj
    have hlen : 0 < colors.length := List.length_pos.mpr h
    rcases Nat.lt_or_ge j colors.length with hlt | hge
    · rw [List.drop_eq_getElem_cons hlt]
      show LoopEvent.on colors[j] :: LoopEvent.sleep duty ::
          effectLoop colors duty n (colors.drop (j + 1)) = _
      rw [ih (j + 1) hlt]
      unfold cycleEvents
      rw [List.range_succ_eq_map, List.map_cons, List.flatMap_cons,
        List.map_map]
      have h0 : colors.getD ((j + 0) % colors.length) (0, 0, 0) = colors[j] := by
        rw [Nat.add_zero, Nat.mod_eq_of_lt hlt]
        exact List.getD_eq_getElem _ _ hlt
      have hfun : (List.range n).map
            ((fun t => colors.getD ((j + t) % colors.length) (0, 0, 0)) ∘
              Nat.succ) =
          (List.range n).map
            (fun t => colors.getD ((j + 1 + t) % colors.length) (0, 0, 0)) := by
        refine List.map_congr_left ?_
        intro t _
        have : j + Nat.succ t = j + 1 + t := by omega
        simp [Function.comp, this]
      rw [h0, hfun]
      rfl
    · have hj' : j = colors.length := le_antisymm hj hge
      subst hj'
      cases colors with
      | nil => exact absurd rfl h
      | cons c rest =>
        rw [List.drop_length]
        have hih := ih 1 (by simp)
        rw [show (c :: rest).drop 1 = rest from rfl] at hih
        show LoopEvent.on c :: LoopEvent.sleep duty ::
            effectLoop (c :: rest) duty n rest =
          cycleEvents (c :: rest) duty (n + 1) (c :: rest).length
        rw [hih]
        unfold cycleEvents
        rw [List.range_succ_eq_map, List.map_cons, List.flatMap_cons,
          List.map_map]
        have h0 : (c :: rest).getD
            (((c :: rest).length + 0) % (c :: rest).length) (0, 0, 0) = c := by
          rw [Nat.add_zero, Nat.mod_self]
          rfl
        have hfun : (List.range n).map
              ((fun t => (c :: rest).getD
                (((c :: rest).length + t) % (c :: rest).length) (0, 0, 0)) ∘
                Nat.succ) =
            (List.range n).map
              (fun t => (c :: rest).getD
                ((1 + t) % (c :: rest).length) (0, 0, 0)) := by
          refine List.map_congr_left ?_
          intro t _
          have harith : ((c :: rest).length + Nat.succ t) % (c :: rest).length =
              (1 + t) % (c :: rest).length := by
            rw [show (c :: rest).length + Nat.succ t =
              (c :: rest).length + (1 + t) by omega]
            exact Nat.add_mod_left _ _
          simp only [Function.comp, harith]
        rw [h0, hfun]
        rfl

/-- C4: for a non-empty color sequence, running the bound effect loop for
`fuel` frames emits exactly the writes `seq[0], seq[1 % len], ...,
seq[(fuel-1) % len]` in order, each followed by a `duty_cycle` suspension; it
emits a full frame for every unit of fuel (so the loop never ends of its own
accord), and each invocation begins again at `seq[0]`. -/
theorem effect_call_spec (colors : List ColorTuple) (duty : ℚ) (fuel : Nat)
    (h : colors ≠ []) :
    effectCall colors duty fuel = cycleEvents colors duty fuel 0
    ∧ (effectCall colors duty fuel).length = 2 * fuel
    ∧ (0 < fuel → (effectCall colors duty fuel).head? =
        some (LoopEvent.on (colors.getD 0 (0, 0, 0)))) := by
  have hmain : effectCall colors duty fuel = cycleEvents colors duty fuel 0 := by
    have := effectLoop_drop colors duty h fuel 0 (Nat.zero_le _)
    simpa [effectCall] using this
  refine ⟨hmain, ?_, ?_⟩
  · rw [hmain]
    unfold cycleEvents
    have hlen : ∀ (l : List ColorTuple),
        (l.flatMap (fun c => [LoopEvent.on c, LoopEvent.sleep duty])).length =
          2 * l.length := by
      intro l
      induction l with
      | nil => rfl
      | cons x xs ihx =>
        rw [List.flatMap_cons, List.length_append, ihx]
        simp
        omega
    rw [hlen]
    simp
  · intro hfuel
    rw [hmain]
    unfold cycleEvents
    cases fuel with
    | zero => omega
    | succ n =>
      rw [List.range_succ_eq_map, List.map_cons, List.flatMap_cons]
      simp

theorem effect_call_spec_witness :
    effectCall [(255, 0, 0), (0, 255, 0)] 0 3 =
      cycleEvents [(255, 0, 0), (0, 255, 0)] 0 3 0
    ∧ (effectCall [(255, 0, 0), (0, 255, 0)] 0 3).length = 2 * 3
    ∧ (0 < 3 → (effectCall [(255, 0, 0), (0, 255, 0)] 0 3).head? =
        some (LoopEvent.on (([(255, 0, 0), (0, 255, 0)] :
          List ColorTuple).getD 0 (0, 0, 0)))) :=
  effect_call_spec [(255, 0, 0), (0, 255, 0)] 0 3 (by decide)

end Busylight
